import Mathlib

/-!
Shallow embedding of `src/src/handler/get_extended_pubkey.c` from the
Ledger Qtum application: the BIP-32 path-safety policy
(`is_path_safe_for_pubkey_export`) and the GET_EXTENDED_PUBKEY request
handler (`handler_get_extended_pubkey`), together with theorems checking
the natural-language specification against this code.

Path components are `uint32_t` in the C code; they are embedded as `Nat`
(the handler only ever produces values `< 2^32`, decoded from four bytes).
The C array parameter `const uint32_t bip32_path[]` plus its length is
embedded as a function `Nat → Nat` plus a length, mirroring the fact that
the C code can in principle index anywhere into the array.

External collaborators (key derivation, path formatting, confirmation UI,
response transport) are not part of the source; the handler is
parameterised over them as functions.
-/

/-- The hardened-derivation marker `#define H 0x80000000ul` from the source. -/
def H : Nat := 0x80000000

/-- Modelled from the spec: `MAX_BIP32_PATH_STEPS` is defined in a header
that is not among the sources.  The spec (§3, §6, §8) fixes a maximum path
depth of 10: "length 0..N (N = a fixed maximum, e.g. 10)" and the scenario
"request with `pathLength=11` (exceeds maximum)". -/
def MAX_BIP32_PATH_STEPS : Nat := 10

/-- Modelled from the spec: `MAX_BIP44_ACCOUNT_RECOMMENDED` is defined in a
header that is not among the sources.  The spec only calls it "a fixed
maximum recommended account index" with the scenario account value
50000000 exceeding it; the customary value 100 is used here.  All theorems
below depend only on the comparison against it, not on its value. -/
def MAX_BIP44_ACCOUNT_RECOMMENDED : Nat := 100

/-- Modelled from the spec: `BIP44_COIN_TYPE` is defined in a header that is
not among the sources; the spec calls it the native coin type of the
application (the registered BIP-44 coin type of Qtum, 88, as used by the
Qtum Electrum legacy path). -/
def BIP44_COIN_TYPE : Nat := 88

/-- Modelled from the spec: `BIP44_COIN_TYPE_2` is defined in a header that
is not among the sources; it is the "secondary legacy identifier" accepted
next to the native coin type.  The spec scenario `44h/0h/0h → success`
fixes it to 0. -/
def BIP44_COIN_TYPE_2 : Nat := 0

/-- The two coin types the handler passes to the policy:
`uint32_t coin_types[2] = {BIP44_COIN_TYPE, BIP44_COIN_TYPE_2};`. -/
def handler_coin_types : List Nat := [BIP44_COIN_TYPE, BIP44_COIN_TYPE_2]

/-- The three legacy allow-list tests at the top of
`is_path_safe_for_pubkey_export` (lines 37-48): the chained
`if / else if / else if` each returning `true`, i.e. their disjunction. -/
def is_legacy_exception (bip32_path : Nat → Nat) (bip32_path_len : Nat) : Bool :=
  -- Exception for Qtum Electrum: "m/44h/88h/4541509h/1112098098h"
  (bip32_path_len == 4 && bip32_path 0 == (44 ^^^ H) && bip32_path 1 == (88 ^^^ H) &&
      bip32_path 2 == (4541509 ^^^ H) && bip32_path 3 == (1112098098 ^^^ H)) ||
  -- Exception for "m/0h/45342h"
  (bip32_path_len == 2 && bip32_path 0 == (0 ^^^ H) && bip32_path 1 == (45342 ^^^ H)) ||
  -- Exception for "m/20698h/3053h/12648430h"
  (bip32_path_len == 3 && bip32_path 0 == (20698 ^^^ H) && bip32_path 1 == (3053 ^^^ H) &&
      bip32_path 2 == (12648430 ^^^ H))

/-- The `switch (purpose)` of the source (lines 57-73): the number of leading
hardened derivation steps required for each recognised purpose, `none` for
the `default: return false` branch. -/
def hardened_der_len_of_purpose (purpose : Nat) : Option Nat :=
  if purpose = 44 ∨ purpose = 49 ∨ purpose = 84 ∨ purpose = 86 then some 3
  else if purpose = 45 then some 3  -- deployed use cases with path m/45h/coin_typeh/accounth
  else if purpose = 48 then some 4
  else none

/-- Embeds `is_path_safe_for_pubkey_export` (lines 33-122).  The two `for` loops with
early `return false` are embedded as bounded universal quantifications over
the loop ranges; the coin-type search loop is `List.contains`. -/
def is_path_safe_for_pubkey_export (bip32_path : Nat → Nat) (bip32_path_len : Nat)
    (coin_types : List Nat) : Bool :=
  if is_legacy_exception bip32_path bip32_path_len then
    true
  else if bip32_path_len < 3 then
    false
  else
    let purpose := bip32_path 0 % H  -- bip32_path[0] & 0x7FFFFFFF
    match hardened_der_len_of_purpose purpose with
    | none => false
    | some hardened_der_len =>
      if bip32_path_len < hardened_der_len then
        false
      else if !(decide (∀ i, i < hardened_der_len → H ≤ bip32_path i)) then
        -- for i < hardened_der_len: if (bip32_path[i] < 0x80000000) return false
        false
      else if !(decide (∀ i, i < bip32_path_len → hardened_der_len ≤ i → bip32_path i < H)) then
        -- extra steps should not be hardened
        false
      else
        let coin_type := bip32_path 1 % H
        let coin_type_found := coin_types.contains coin_type
        if !coin_type_found then
          false
        else
          let account := bip32_path 2 % H
          if MAX_BIP44_ACCOUNT_RECOMMENDED < account then
            -- Account should not be too large
            false
          else if purpose == 48 then
            -- only standardized script type values are 1h and 2h
            let script_type := bip32_path 3 % H
            if script_type != 1 && script_type != 2 then false else true
          else
            true

/-- Modelled from the spec: status codes from `boilerplate/sw.h`, a header
that is not among the sources.  The spec (§6, §7) names six failure codes
plus success; the values are the customary ISO 7816 words, and no theorem
depends on the values, only on their distinctness. -/
def SW_SECURITY_STATUS_NOT_SATISFIED : Nat := 0x6982

/-- Modelled from the spec: "wrong data length" status (see
`SW_SECURITY_STATUS_NOT_SATISFIED`). -/
def SW_WRONG_DATA_LENGTH : Nat := 0x6A87

/-- Modelled from the spec: "incorrect data" status. -/
def SW_INCORRECT_DATA : Nat := 0x6A80

/-- Modelled from the spec: "not supported" status. -/
def SW_NOT_SUPPORTED : Nat := 0x6A82

/-- Modelled from the spec: "bad state" (internal/fatal) status. -/
def SW_BAD_STATE : Nat := 0xB007

/-- Modelled from the spec: "denied" status. -/
def SW_DENY : Nat := 0x6985

/-- The terminal action of one handler invocation: either `SEND_SW`
(a lone status word, no key material) or `SEND_RESPONSE` (the serialized
extended public key string together with the success status `SW_OK`). -/
inductive Response where
  | sw : Nat → Response
  | ok : String → Response
deriving DecidableEq

/-- Embeds `buffer_read_u8`: reads one byte from the read buffer, `none` when the
buffer is exhausted (the C function returns `false`). -/
def buffer_read_u8 : List Nat → Option (Nat × List Nat)
  | [] => none
  | b :: rest => some (b, rest)

/-- One big-endian `uint32_t` read from the request body. -/
def read_u32_be : List Nat → Option (Nat × List Nat)
  | b0 :: b1 :: b2 :: b3 :: rest => some (((b0 * 256 + b1) * 256 + b2) * 256 + b3, rest)
  | _ => none

/-- Embeds `buffer_read_bip32_path`: reads exactly `n` big-endian 32-bit path
components, `none` when the body is truncated. -/
def buffer_read_bip32_path : Nat → List Nat → Option (List Nat × List Nat)
  | 0, buf => some ([], buf)
  | n + 1, buf =>
    match read_u32_be buf with
    | none => none
    | some (x, rest) =>
      match buffer_read_bip32_path n rest with
      | none => none
      | some (xs, rest2) => some (x :: xs, rest2)

/-- Lines 174-177 of the source: `path_str` is initialised to the literal
`"(Master key)"` and overwritten by `bip32_path_format` only when
`bip32_path_len > 0`. -/
def compute_path_str (bip32_path_format : List Nat → String) (bip32_path : List Nat)
    (bip32_path_len : Nat) : String :=
  if bip32_path_len > 0 then bip32_path_format bip32_path else "(Master key)"

/-- Embeds `handler_get_extended_pubkey` (lines 124-184).  External collaborators are
passed as functions: `pin_is_validated` is the outcome of
`os_global_pin_is_validated() == BOLOS_UX_OK`;
`get_serialized_extended_pubkey_at_path` returns `none` for the C return
value `-1` and otherwise the serialized pubkey string; `bip32_path_format`
renders a nonempty path; `ui_display_pubkey path_str is_unsafe pubkey`
returns the approval verdict of the user. -/
def handler_get_extended_pubkey
    (pin_is_validated : Bool)
    (get_serialized_extended_pubkey_at_path : List Nat → Option String)
    (bip32_path_format : List Nat → String)
    (ui_display_pubkey : String → Bool → String → Bool)
    (read_buffer : List Nat) : Response :=
  if !pin_is_validated then
    Response.sw SW_SECURITY_STATUS_NOT_SATISFIED
  else
    match buffer_read_u8 read_buffer with
    | none => Response.sw SW_WRONG_DATA_LENGTH
    | some (display, buf1) =>
      match buffer_read_u8 buf1 with
      | none => Response.sw SW_WRONG_DATA_LENGTH
      | some (bip32_path_len, buf2) =>
        if display > 1 ∨ bip32_path_len > MAX_BIP32_PATH_STEPS then
          Response.sw SW_INCORRECT_DATA
        else
          match buffer_read_bip32_path bip32_path_len buf2 with
          | none => Response.sw SW_WRONG_DATA_LENGTH
          | some (bip32_path, _) =>
            let is_safe := is_path_safe_for_pubkey_export (fun i => bip32_path.getD i 0)
                bip32_path_len handler_coin_types
            if is_safe = false ∧ display = 0 then
              Response.sw SW_NOT_SUPPORTED
            else
              match get_serialized_extended_pubkey_at_path bip32_path with
              | none => Response.sw SW_BAD_STATE
              | some serialized_pubkey_str =>
                let path_str := compute_path_str bip32_path_format bip32_path bip32_path_len
                if display ≠ 0 ∧
                    ui_display_pubkey path_str (!is_safe) serialized_pubkey_str = false then
                  Response.sw SW_DENY
                else
                  Response.ok serialized_pubkey_str

/-! ## Helper lemmas -/

/-- The purpose switch returns `none` exactly off the recognised purposes. -/
theorem hardened_der_len_of_purpose_eq_none (p : Nat)
    (h : ¬(p = 44 ∨ p = 49 ∨ p = 84 ∨ p = 86 ∨ p = 45 ∨ p = 48)) :
    hardened_der_len_of_purpose p = none := by
  unfold hardened_der_len_of_purpose
  rw [if_neg (by tauto), if_neg (by tauto), if_neg (by tauto)]

/-- The purpose switch returns 3 on the five single-length purposes. -/
theorem hardened_der_len_of_purpose_eq_three (p : Nat)
    (h : p = 44 ∨ p = 49 ∨ p = 84 ∨ p = 86 ∨ p = 45) :
    hardened_der_len_of_purpose p = some 3 := by
  unfold hardened_der_len_of_purpose
  rcases h with h | h | h | h | h <;> subst h <;> rfl

/-- Propositional characterisation of the legacy allow-list test. -/
theorem is_legacy_exception_eq_true_iff (f : Nat → Nat) (len : Nat) :
    is_legacy_exception f len = true ↔
      (len = 4 ∧ f 0 = 44 ^^^ H ∧ f 1 = 88 ^^^ H ∧ f 2 = 4541509 ^^^ H ∧
        f 3 = 1112098098 ^^^ H) ∨
      (len = 2 ∧ f 0 = 0 ^^^ H ∧ f 1 = 45342 ^^^ H) ∨
      (len = 3 ∧ f 0 = 20698 ^^^ H ∧ f 1 = 3053 ^^^ H ∧ f 2 = 12648430 ^^^ H) := by
  simp [is_legacy_exception, and_assoc, or_assoc]

/-- Characterisation of the general branch of the policy: for a
non-exception path of length at least 3, the policy accepts exactly when
the purpose is recognised, the purpose-prescribed hardened-prefix length
fits, the prefix is hardened, the remaining steps are unhardened, the coin
type is accepted, the account is bounded, and (for purpose 48) the script
type is 1 or 2. -/
theorem is_path_safe_general_iff (f : Nat → Nat) (len : Nat) (ct : List Nat)
    (hexc : is_legacy_exception f len = false) (hlen : 3 ≤ len) :
    is_path_safe_for_pubkey_export f len ct = true ↔
      ∃ hdl, hardened_der_len_of_purpose (f 0 % H) = some hdl ∧
        hdl ≤ len ∧
        (∀ i, i < hdl → H ≤ f i) ∧
        (∀ i, i < len → hdl ≤ i → f i < H) ∧
        ct.contains (f 1 % H) = true ∧
        f 2 % H ≤ MAX_BIP44_ACCOUNT_RECOMMENDED ∧
        (f 0 % H = 48 → f 3 % H = 1 ∨ f 3 % H = 2) := by
  simp only [is_path_safe_for_pubkey_export, hexc, Bool.false_eq_true, if_false,
    if_neg (show ¬(len < 3) by omega)]
  cases hh : hardened_der_len_of_purpose (f 0 % H) with
  | none => simp
  | some hdl =>
    simp only [Option.some.injEq]
    constructor
    · intro h
      refine ⟨hdl, rfl, ?_⟩
      by_cases h1 : len < hdl
      · rw [if_pos h1] at h; exact absurd h (by simp)
      rw [if_neg h1] at h
      by_cases h2 : ∀ i, i < hdl → H ≤ f i
      swap
      · rw [if_pos (by simpa using h2)] at h; exact absurd h (by simp)
      rw [if_neg (by simpa using h2)] at h
      by_cases h3 : ∀ i, i < len → hdl ≤ i → f i < H
      swap
      · rw [if_pos (by simpa using h3)] at h; exact absurd h (by simp)
      rw [if_neg (by simpa using h3)] at h
      by_cases h4 : ct.contains (f 1 % H) = true
      swap
      · rw [if_pos (by simpa using h4)] at h; exact absurd h (by simp)
      rw [if_neg (by simpa using h4)] at h
      by_cases h5 : MAX_BIP44_ACCOUNT_RECOMMENDED < f 2 % H
      · rw [if_pos h5] at h; exact absurd h (by simp)
      rw [if_neg h5] at h
      refine ⟨by omega, h2, h3, h4, by omega, ?_⟩
      intro h48
      by_cases h6 : (f 0 % H == 48) = true
      swap
      · exact absurd (by simpa using h48) (by simpa using h6)
      rw [if_pos h6] at h
      by_cases h7 : (f 3 % H != 1 && f 3 % H != 2) = true
      · rw [if_pos h7] at h; exact absurd h (by simp)
      · simp only [Bool.and_eq_true, bne_iff_ne, ne_eq, not_and_or, not_not] at h7
        exact h7
    · rintro ⟨hdl', hdl'eq, hle, h2, h3, h4, h5, h6⟩
      subst hdl'eq
      rw [if_neg (by omega), if_neg (by simpa using h2), if_neg (by simpa using h3),
        if_neg (by simpa using h4), if_neg (by omega)]
      by_cases h48 : f 0 % H = 48
      · rw [if_pos (by simpa using h48)]
        rcases h6 h48 with h | h <;> simp [h]
      · rw [if_neg (by simpa using h48)]

/-! ## C3: legacy exception paths are unconditionally safe -/

/-- C3: For every path equal component for component (with exact length and
exact hardened flags) to one of the three literal legacy exception paths
`m/44h/88h/4541509h/1112098098h`, `m/0h/45342h`, `m/20698h/3053h/12648430h`,
the policy returns safe, regardless of the accepted-currency set and of
every general rule (minimum length, purpose, hardening shape, currency,
account bound). -/
theorem legacy_exception_paths_always_safe (coin_types : List Nat) :
    is_path_safe_for_pubkey_export
        (fun i => ([44 ^^^ H, 88 ^^^ H, 4541509 ^^^ H, 1112098098 ^^^ H] : List Nat).getD i 0)
        4 coin_types = true ∧
    is_path_safe_for_pubkey_export
        (fun i => ([0 ^^^ H, 45342 ^^^ H] : List Nat).getD i 0) 2 coin_types = true ∧
    is_path_safe_for_pubkey_export
        (fun i => ([20698 ^^^ H, 3053 ^^^ H, 12648430 ^^^ H] : List Nat).getD i 0)
        3 coin_types = true :=
  ⟨rfl, rfl, rfl⟩

/-! ## C4: paths shorter than 3 components -/

/-- C4, counterexample: the claim "every path of length strictly less than 3
is classified unsafe" is false on the code: the legacy exception path
`m/0h/45342h` has length 2 and the policy classifies it safe. -/
theorem short_path_unsafe_cex :
    2 < 3 ∧
      is_path_safe_for_pubkey_export
        (fun i => ([0 ^^^ H, 45342 ^^^ H] : List Nat).getD i 0) 2 handler_coin_types = true :=
  ⟨by decide, rfl⟩

/-- C4, amended: every path of length strictly less than 3 that is not the
length-2 legacy exception `m/0h/45342h` is classified unsafe; in particular
paths of length 0 and 1 are always unsafe. -/
theorem short_path_unsafe (f : Nat → Nat) (len : Nat) (ct : List Nat)
    (hlen : len < 3)
    (hexc : ¬(len = 2 ∧ f 0 = 0 ^^^ H ∧ f 1 = 45342 ^^^ H)) :
    is_path_safe_for_pubkey_export f len ct = false := by
  have e : is_legacy_exception f len = false := by
    rw [Bool.eq_false_iff, Ne, is_legacy_exception_eq_true_iff]
    rintro (⟨h4, -⟩ | ⟨h2, hx⟩ | ⟨h3, -⟩)
    · omega
    · exact hexc ⟨h2, hx⟩
    · omega
  simp [is_path_safe_for_pubkey_export, e, hlen]

/-- C4 witness: the amended theorem applied at the length-1 path `m/0h`. -/
theorem short_path_unsafe_wit :
    is_path_safe_for_pubkey_export (fun _ => 0 ^^^ H) 1 handler_coin_types = false :=
  short_path_unsafe (fun _ => 0 ^^^ H) 1 handler_coin_types (by decide) (by decide)

/-! ## C5: purpose-driven hardened-prefix length and hardening shape -/

/-- C5: For every path of length at least 3 that is not a legacy exception:
a purpose (first component masked) outside {44, 49, 84, 86, 45, 48} makes
the path unsafe; for purpose in {44, 49, 84, 86, 45} a safe verdict forces
exactly the first 3 components hardened and every later component
unhardened; for purpose 48 it forces exactly the first 4 components
hardened and every later component unhardened (so violating the
prefix-hardened or suffix-unhardened rule makes the path unsafe). -/
theorem purpose_hardening_shape (f : Nat → Nat) (len : Nat) (ct : List Nat)
    (hexc : is_legacy_exception f len = false) (hlen : 3 ≤ len) :
    (¬(f 0 % H = 44 ∨ f 0 % H = 49 ∨ f 0 % H = 84 ∨ f 0 % H = 86 ∨ f 0 % H = 45 ∨
          f 0 % H = 48) →
        is_path_safe_for_pubkey_export f len ct = false) ∧
    ((f 0 % H = 44 ∨ f 0 % H = 49 ∨ f 0 % H = 84 ∨ f 0 % H = 86 ∨ f 0 % H = 45) →
        is_path_safe_for_pubkey_export f len ct = true →
        (∀ i, i < 3 → H ≤ f i) ∧ (∀ i, i < len → 3 ≤ i → f i < H)) ∧
    (f 0 % H = 48 →
        is_path_safe_for_pubkey_export f len ct = true →
        4 ≤ len ∧ (∀ i, i < 4 → H ≤ f i) ∧ (∀ i, i < len → 4 ≤ i → f i < H)) := by
  refine ⟨?_, ?_, ?_⟩
  · intro hp
    rw [Bool.eq_false_iff, Ne, is_path_safe_general_iff f len ct hexc hlen]
    rintro ⟨hdl, hsome, -⟩
    rw [hardened_der_len_of_purpose_eq_none (f 0 % H) hp] at hsome
    exact Option.noConfusion hsome
  · intro hp hsafe
    rcases (is_path_safe_general_iff f len ct hexc hlen).mp hsafe with
      ⟨hdl, hsome, hle, hpre, hpost, -⟩
    rw [hardened_der_len_of_purpose_eq_three (f 0 % H) hp] at hsome
    obtain rfl : 3 = hdl := Option.some.injEq _ _ ▸ hsome
    exact ⟨hpre, hpost⟩
  · intro hp hsafe
    rcases (is_path_safe_general_iff f len ct hexc hlen).mp hsafe with
      ⟨hdl, hsome, hle, hpre, hpost, -⟩
    rw [hp] at hsome
    obtain rfl : 4 = hdl := Option.some.injEq _ _ ▸ (by simpa [hardened_der_len_of_purpose] using hsome)
    exact ⟨hle, hpre, hpost⟩

/-- C5 witness: the theorem applied to the path `m/44h/0h/0h` (purpose 44,
well-shaped and safe), discharging both hypotheses concretely. -/
theorem purpose_hardening_shape_wit :
    is_legacy_exception (fun i => ([44 ^^^ H, 0 ^^^ H, 0 ^^^ H] : List Nat).getD i 0) 3 = false ∧
    (3 : Nat) ≤ 3 ∧
    ((¬((44 ^^^ H) % H = 44 ∨ (44 ^^^ H) % H = 49 ∨ (44 ^^^ H) % H = 84 ∨
          (44 ^^^ H) % H = 86 ∨ (44 ^^^ H) % H = 45 ∨ (44 ^^^ H) % H = 48) →
        is_path_safe_for_pubkey_export
          (fun i => ([44 ^^^ H, 0 ^^^ H, 0 ^^^ H] : List Nat).getD i 0) 3
          handler_coin_types = false) ∧
      (((fun i => ([44 ^^^ H, 0 ^^^ H, 0 ^^^ H] : List Nat).getD i 0) 0 % H = 44 ∨
          (44 ^^^ H) % H = 49 ∨ (44 ^^^ H) % H = 84 ∨ (44 ^^^ H) % H = 86 ∨
          (44 ^^^ H) % H = 45) →
        is_path_safe_for_pubkey_export
          (fun i => ([44 ^^^ H, 0 ^^^ H, 0 ^^^ H] : List Nat).getD i 0) 3
          handler_coin_types = true →
        (∀ i, i < 3 → H ≤ ([44 ^^^ H, 0 ^^^ H, 0 ^^^ H] : List Nat).getD i 0) ∧
        (∀ i, i < 3 → 3 ≤ i → ([44 ^^^ H, 0 ^^^ H, 0 ^^^ H] : List Nat).getD i 0 < H)) ∧
      ((44 ^^^ H) % H = 48 →
        is_path_safe_for_pubkey_export
          (fun i => ([44 ^^^ H, 0 ^^^ H, 0 ^^^ H] : List Nat).getD i 0) 3
          handler_coin_types = true →
        4 ≤ 3 ∧ (∀ i, i < 4 → H ≤ ([44 ^^^ H, 0 ^^^ H, 0 ^^^ H] : List Nat).getD i 0) ∧
          (∀ i, i < 3 → 4 ≤ i → ([44 ^^^ H, 0 ^^^ H, 0 ^^^ H] : List Nat).getD i 0 < H))) :=
  ⟨by decide, by decide,
    purpose_hardening_shape (fun i => ([44 ^^^ H, 0 ^^^ H, 0 ^^^ H] : List Nat).getD i 0) 3
      handler_coin_types (by decide) (by decide)⟩

/-! ## C6: currency and account bound -/

/-- C6: For every non-exception path with an accepted purpose that satisfies
the hardening-shape rules, the policy returns unsafe if the second
component (masked) is not among the accepted coin types, or if the third
component (masked) exceeds the maximum recommended account index; and the
handler supplies exactly the two coin types (the primary and the
secondary). -/
theorem coin_type_and_account_bound (f : Nat → Nat) (len hdl : Nat) (ct : List Nat)
    (hexc : is_legacy_exception f len = false) (hlen : 3 ≤ len)
    (hp : hardened_der_len_of_purpose (f 0 % H) = some hdl)
    (hle : hdl ≤ len)
    (hpre : ∀ i, i < hdl → H ≤ f i)
    (hpost : ∀ i, i < len → hdl ≤ i → f i < H) :
    (ct.contains (f 1 % H) = false →
        is_path_safe_for_pubkey_export f len ct = false) ∧
    (MAX_BIP44_ACCOUNT_RECOMMENDED < f 2 % H →
        is_path_safe_for_pubkey_export f len ct = false) ∧
    handler_coin_types = [BIP44_COIN_TYPE, BIP44_COIN_TYPE_2] := by
  refine ⟨?_, ?_, rfl⟩
  · intro hcoin
    rw [Bool.eq_false_iff, Ne, is_path_safe_general_iff f len ct hexc hlen]
    rintro ⟨hdl', hsome', -, -, -, hfound, -⟩
    rw [hcoin] at hfound
    exact Bool.noConfusion hfound
  · intro hacct
    rw [Bool.eq_false_iff, Ne, is_path_safe_general_iff f len ct hexc hlen]
    rintro ⟨hdl', hsome', -, -, -, -, hbound, -⟩
    omega

/-- C6 witness: the theorem applied to the path `m/44h/7h/200h` with the
coin-type set of the handler (coin type 7 is not accepted and account 200
exceeds the maximum). -/
theorem coin_type_and_account_bound_wit :
    (handler_coin_types.contains
          (((fun i => ([44 ^^^ H, 7 ^^^ H, 200 ^^^ H] : List Nat).getD i 0) 1) % H) = false →
        is_path_safe_for_pubkey_export
          (fun i => ([44 ^^^ H, 7 ^^^ H, 200 ^^^ H] : List Nat).getD i 0) 3
          handler_coin_types = false) ∧
    (MAX_BIP44_ACCOUNT_RECOMMENDED <
          ((fun i => ([44 ^^^ H, 7 ^^^ H, 200 ^^^ H] : List Nat).getD i 0) 2) % H →
        is_path_safe_for_pubkey_export
          (fun i => ([44 ^^^ H, 7 ^^^ H, 200 ^^^ H] : List Nat).getD i 0) 3
          handler_coin_types = false) ∧
    handler_coin_types = [BIP44_COIN_TYPE, BIP44_COIN_TYPE_2] :=
  coin_type_and_account_bound (fun i => ([44 ^^^ H, 7 ^^^ H, 200 ^^^ H] : List Nat).getD i 0)
    3 3 handler_coin_types (by decide) (by decide) (by decide) (by decide)
    (by decide) (by decide)

/-! ## C7: BIP-48 script-type constraint -/

/-- C7: For every non-exception path with purpose 48 that passes all the
preceding checks (length, hardening shape, accepted coin type, bounded
account), the policy returns safe exactly when the fourth component
(masked) equals 1 or 2; any other value makes the path unsafe. -/
theorem bip48_script_type (f : Nat → Nat) (len : Nat) (ct : List Nat)
    (hexc : is_legacy_exception f len = false)
    (hp : f 0 % H = 48)
    (hle : 4 ≤ len)
    (hpre : ∀ i, i < 4 → H ≤ f i)
    (hpost : ∀ i, i < len → 4 ≤ i → f i < H)
    (hcoin : ct.contains (f 1 % H) = true)
    (hacct : f 2 % H ≤ MAX_BIP44_ACCOUNT_RECOMMENDED) :
    is_path_safe_for_pubkey_export f len ct =
      (decide (f 3 % H = 1) || decide (f 3 % H = 2)) := by
  have hlen : 3 ≤ len := by omega
  by_cases hs : f 3 % H = 1 ∨ f 3 % H = 2
  · have : is_path_safe_for_pubkey_export f len ct = true :=
      (is_path_safe_general_iff f len ct hexc hlen).mpr
        ⟨4, by rw [hp]; rfl, hle, hpre, hpost, hcoin, hacct, fun _ => hs⟩
    rw [this]
    rcases hs with h | h <;> simp [h]
  · have : ¬is_path_safe_for_pubkey_export f len ct = true := by
      rw [is_path_safe_general_iff f len ct hexc hlen]
      rintro ⟨hdl', hsome', -, -, -, -, -, h48⟩
      exact hs (h48 hp)
    rw [Bool.not_eq_true] at this
    rw [this]
    rcases not_or.mp hs with ⟨h1, h2⟩
    simp [h1, h2]

/-- C7 witness: the theorem applied to the BIP-48 path `m/48h/88h/0h/1h`,
whose script type is 1, with the coin-type set of the handler. -/
theorem bip48_script_type_wit :
    is_path_safe_for_pubkey_export
        (fun i => ([48 ^^^ H, 88 ^^^ H, 0 ^^^ H, 1 ^^^ H] : List Nat).getD i 0) 4
        handler_coin_types =
      (decide (((fun i => ([48 ^^^ H, 88 ^^^ H, 0 ^^^ H, 1 ^^^ H] : List Nat).getD i 0) 3) % H = 1) ||
        decide (((fun i => ([48 ^^^ H, 88 ^^^ H, 0 ^^^ H, 1 ^^^ H] : List Nat).getD i 0) 3) % H = 2)) :=
  bip48_script_type (fun i => ([48 ^^^ H, 88 ^^^ H, 0 ^^^ H, 1 ^^^ H] : List Nat).getD i 0)
    4 handler_coin_types (by decide) (by decide) (by decide) (by decide) (by decide)
    (by decide) (by decide)

/-! ## C8: decode error statuses -/

/-- A request body with fewer than `4 * n` bytes cannot supply `n` path
components. -/
theorem buffer_read_bip32_path_eq_none (n : Nat) (buf : List Nat)
    (h : buf.length < 4 * n) : buffer_read_bip32_path n buf = none := by
  induction n generalizing buf with
  | zero => omega
  | succ n ih =>
    match buf with
    | [] => rfl
    | [b0] => rfl
    | [b0, b1] => rfl
    | [b0, b1, b2] => rfl
    | b0 :: b1 :: b2 :: b3 :: rest =>
      simp only [buffer_read_bip32_path, read_u32_be]
      rw [ih rest (by simp only [List.length_cons] at h; omega)]

/-- C8: decoding errors carry the specified statuses in the specified order:
a header shorter than the display flag plus the path-length byte yields
"wrong data length"; a display value outside {0, 1} or a path length over
the maximum yields "incorrect data" for every request body (so before any
path component byte is read); a body truncated before supplying all
declared components yields "wrong data length". -/
theorem decode_error_statuses
    (derive : List Nat → Option String) (fmt : List Nat → String)
    (ui : String → Bool → String → Bool) :
    (∀ data : List Nat, data.length < 2 →
        handler_get_extended_pubkey true derive fmt ui data =
          Response.sw SW_WRONG_DATA_LENGTH) ∧
    (∀ display bip32_path_len : Nat, ∀ rest : List Nat,
        display > 1 ∨ bip32_path_len > MAX_BIP32_PATH_STEPS →
        handler_get_extended_pubkey true derive fmt ui (display :: bip32_path_len :: rest) =
          Response.sw SW_INCORRECT_DATA) ∧
    (∀ display bip32_path_len : Nat, ∀ rest : List Nat,
        display ≤ 1 → bip32_path_len ≤ MAX_BIP32_PATH_STEPS →
        rest.length < 4 * bip32_path_len →
        handler_get_extended_pubkey true derive fmt ui (display :: bip32_path_len :: rest) =
          Response.sw SW_WRONG_DATA_LENGTH) := by
  refine ⟨?_, ?_, ?_⟩
  · intro data hlt
    match data with
    | [] => rfl
    | [b] => rfl
  · intro display bip32_path_len rest h
    simp only [handler_get_extended_pubkey, buffer_read_u8, Bool.not_true, Bool.false_eq_true,
      if_false]
    rw [if_pos h]
  · intro display bip32_path_len rest hd hl hshort
    simp only [handler_get_extended_pubkey, buffer_read_u8, Bool.not_true, Bool.false_eq_true,
      if_false]
    rw [if_neg (by omega), buffer_read_bip32_path_eq_none bip32_path_len rest hshort]

/-- C8 witness: the three parts applied to concrete requests: an empty
request, the over-maximum `pathLength = 11` request from the spec, and a declared length-2 path
with a 3-byte body. -/
theorem decode_error_statuses_wit :
    handler_get_extended_pubkey true (fun _ => some "xpub") (fun _ => "")
        (fun _ _ _ => true) [] = Response.sw SW_WRONG_DATA_LENGTH ∧
    handler_get_extended_pubkey true (fun _ => some "xpub") (fun _ => "")
        (fun _ _ _ => true) [0, 11] = Response.sw SW_INCORRECT_DATA ∧
    handler_get_extended_pubkey true (fun _ => some "xpub") (fun _ => "")
        (fun _ _ _ => true) [0, 2, 1, 2, 3] = Response.sw SW_WRONG_DATA_LENGTH :=
  ⟨(decode_error_statuses (fun _ => some "xpub") (fun _ => "") (fun _ _ _ => true)).1 []
      (by decide),
    (decode_error_statuses (fun _ => some "xpub") (fun _ => "") (fun _ _ _ => true)).2.1 0 11 []
      (by decide),
    (decode_error_statuses (fun _ => some "xpub") (fun _ => "") (fun _ _ _ => true)).2.2 0 2
      [1, 2, 3] (by decide) (by decide) (by decide)⟩

/-! ## C2: unsafe path without display is rejected -/

/-- C2: For every well-formed, decoded request whose path the policy
classifies as not safe and whose display flag is 0, the handler terminates
with the "not supported" status and transmits no key material (the
response is a lone status word). -/
theorem unsafe_without_display_not_supported
    (derive : List Nat → Option String) (fmt : List Nat → String)
    (ui : String → Bool → String → Bool)
    (data buf1 buf2 buf3 : List Nat) (display bip32_path_len : Nat) (bip32_path : List Nat)
    (h1 : buffer_read_u8 data = some (display, buf1))
    (h2 : buffer_read_u8 buf1 = some (bip32_path_len, buf2))
    (hd : display = 0)
    (hl : bip32_path_len ≤ MAX_BIP32_PATH_STEPS)
    (h3 : buffer_read_bip32_path bip32_path_len buf2 = some (bip32_path, buf3))
    (hnotsafe : is_path_safe_for_pubkey_export (fun i => bip32_path.getD i 0) bip32_path_len
        handler_coin_types = false) :
    handler_get_extended_pubkey true derive fmt ui data = Response.sw SW_NOT_SUPPORTED := by
  subst hd
  simp only [handler_get_extended_pubkey, h1, h2, h3, Bool.not_true, Bool.false_eq_true,
    if_false]
  rw [if_neg (by omega), if_pos ⟨hnotsafe, trivial⟩]

/-- C2 witness: the theorem applied to the scenario request of the spec,
`display = 0`, path `m/44h/0h/50000000h` (account over the maximum). -/
theorem unsafe_without_display_not_supported_wit :
    handler_get_extended_pubkey true (fun _ => some "xpub") (fun _ => "")
        (fun _ _ _ => true)
        [0, 3, 0x80, 0, 0, 0x2C, 0x80, 0, 0, 0, 0x82, 0xFA, 0xF0, 0x80] =
      Response.sw SW_NOT_SUPPORTED :=
  unsafe_without_display_not_supported (fun _ => some "xpub") (fun _ => "")
    (fun _ _ _ => true)
    [0, 3, 0x80, 0, 0, 0x2C, 0x80, 0, 0, 0, 0x82, 0xFA, 0xF0, 0x80]
    [3, 0x80, 0, 0, 0x2C, 0x80, 0, 0, 0, 0x82, 0xFA, 0xF0, 0x80]
    [0x80, 0, 0, 0x2C, 0x80, 0, 0, 0, 0x82, 0xFA, 0xF0, 0x80] []
    0 3 [0x8000002C, 0x80000000, 0x82FAF080]
    (by decide) (by decide) (by decide) (by decide) (by decide) (by decide)

/-! ## C9: empty path renders as the master-key label -/

/-- C9: For every request with a path of length zero that reaches the
confirmation step, the displayed path text is the fixed literal
`"(Master key)"` and the path formatter is not invoked: the text is the
literal for every formatter, and the confirmation outcome is the only
thing the response still depends on. -/
theorem empty_path_master_key_label
    (fmt : List Nat → String) (derive : List Nat → Option String)
    (ui : String → Bool → String → Bool) (key : String)
    (hder : derive [] = some key) :
    compute_path_str fmt [] 0 = "(Master key)" ∧
    handler_get_extended_pubkey true derive fmt ui [1, 0] =
      (if ui "(Master key)" true key = false then Response.sw SW_DENY
        else Response.ok key) := by
  refine ⟨rfl, ?_⟩
  have hsafe : is_path_safe_for_pubkey_export (fun i => ([] : List Nat).getD i 0) 0
      handler_coin_types = false := by decide
  simp only [handler_get_extended_pubkey, buffer_read_u8, buffer_read_bip32_path,
    Bool.not_true, Bool.false_eq_true, if_false, hder, hsafe, compute_path_str]
  norm_num

/-- C9 witness: the theorem applied to a concrete formatter, derivation
outcome and approving user. -/
theorem empty_path_master_key_label_wit :
    compute_path_str (fun _ => "formatted") [] 0 = "(Master key)" ∧
    handler_get_extended_pubkey true (fun _ => some "xpub") (fun _ => "formatted")
        (fun _ _ _ => true) [1, 0] =
      (if (fun _ _ _ => true : String → Bool → String → Bool) "(Master key)" true "xpub" = false
        then Response.sw SW_DENY else Response.ok "xpub") :=
  empty_path_master_key_label (fun _ => "formatted") (fun _ => some "xpub")
    (fun _ _ _ => true) "xpub" rfl

/-! ## C10: the policy reads only components below the given length -/

/-- The legacy allow-list test reads only components at indices strictly
below the given length. -/
theorem is_legacy_exception_congr (f g : Nat → Nat) (len : Nat)
    (ha : ∀ i, i < len → f i = g i) :
    is_legacy_exception f len = is_legacy_exception g len := by
  by_cases h4 : len = 4
  · subst h4
    simp only [is_legacy_exception, ha 0 (by omega), ha 1 (by omega), ha 2 (by omega),
      ha 3 (by omega)]
  by_cases h3 : len = 3
  · subst h3
    simp [is_legacy_exception, ha 0 (by omega), ha 1 (by omega), ha 2 (by omega)]
  by_cases h2 : len = 2
  · subst h2
    simp [is_legacy_exception, ha 0 (by omega), ha 1 (by omega)]
  · simp [is_legacy_exception, beq_eq_false_iff_ne.mpr h4, beq_eq_false_iff_ne.mpr h3,
      beq_eq_false_iff_ne.mpr h2]

/-- C10: For every path length up to the maximum depth and arbitrary 32-bit
component values, the policy function reads only components at indices
strictly below the given length (two component arrays agreeing below the
length get the same verdict) and returns a boolean without trapping (it is
a total function); in particular the fourth component used by the BIP-48
script-type check cannot influence the verdict when the length is at most
3, because the hardened-prefix length check rejects shorter purpose-48
paths first. -/
theorem policy_reads_only_below_length (f g : Nat → Nat) (len : Nat) (ct : List Nat)
    (hlen : len ≤ MAX_BIP32_PATH_STEPS)
    (ha : ∀ i, i < len → f i = g i) :
    is_path_safe_for_pubkey_export f len ct = is_path_safe_for_pubkey_export g len ct := by
  simp only [is_path_safe_for_pubkey_export, is_legacy_exception_congr f g len ha]
  by_cases hexc : is_legacy_exception g len = true
  · simp [hexc]
  · simp only [hexc, Bool.false_eq_true, if_false]
    by_cases hl3 : len < 3
    · simp [hl3]
    · rw [ha 0 (by omega)]
      cases hh : hardened_der_len_of_purpose (g 0 % H) with
      | none => rfl
      | some hdl =>
        simp only [if_neg hl3]
        by_cases hhl : len < hdl
        · simp [hhl]
        · have hfg : ∀ i, i < hdl → f i = g i := fun i hi => ha i (by omega)
          have e1 : (∀ i, i < hdl → H ≤ f i) ↔ (∀ i, i < hdl → H ≤ g i) := by
            apply forall_congr'
            intro i
            apply imp_congr_right
            intro hi
            rw [hfg i hi]
          have e2 : (∀ i, i < len → hdl ≤ i → f i < H) ↔
              (∀ i, i < len → hdl ≤ i → g i < H) := by
            apply forall_congr'
            intro i
            apply imp_congr_right
            intro hi
            apply imp_congr_right
            intro _
            rw [ha i hi]
          rw [decide_eq_decide.mpr e1, decide_eq_decide.mpr e2, ha 1 (by omega), ha 2 (by omega)]
          by_cases h48 : g 0 % H = 48
          · have hdl4 : hdl = 4 := by
              rw [h48] at hh
              simpa [hardened_der_len_of_purpose] using hh.symm
            rw [ha 3 (by omega)]
          · have : (g 0 % H == 48) = false := beq_eq_false_iff_ne.mpr h48
            simp [this]

/-- C10 witness: the theorem applied to two arrays that agree on the first
two components and differ at index 3, at length 2. -/
theorem policy_reads_only_below_length_wit :
    is_path_safe_for_pubkey_export (fun _ => 0 ^^^ H) 2 handler_coin_types =
      is_path_safe_for_pubkey_export
        (fun i => if i < 2 then 0 ^^^ H else 12345) 2 handler_coin_types :=
  policy_reads_only_below_length (fun _ => 0 ^^^ H)
    (fun i => if i < 2 then 0 ^^^ H else 12345) 2 handler_coin_types
    (by decide) (by decide)

/-! ## C1: no key disclosure without safety or explicit approval -/

/-- C1: For every request, the handler returns either a lone status word
(so every protocol, policy, or internal error exit sends exactly one
status code and no key material) or a key-bearing success response; and a
success response is possible only when the device is unlocked, the request
decoded completely, and either the policy classified the decoded path safe
or the caller requested display and the user approved exactly that
rendered path and that key in the confirmation step. -/
theorem no_key_without_safety_or_approval
    (pin_is_validated : Bool)
    (derive : List Nat → Option String) (fmt : List Nat → String)
    (ui : String → Bool → String → Bool) (data : List Nat) (s : String)
    (h : handler_get_extended_pubkey pin_is_validated derive fmt ui data = Response.ok s) :
    pin_is_validated = true ∧
    ∃ display buf1 bip32_path_len buf2 bip32_path buf3,
      buffer_read_u8 data = some (display, buf1) ∧
      buffer_read_u8 buf1 = some (bip32_path_len, buf2) ∧
      display ≤ 1 ∧ bip32_path_len ≤ MAX_BIP32_PATH_STEPS ∧
      buffer_read_bip32_path bip32_path_len buf2 = some (bip32_path, buf3) ∧
      derive bip32_path = some s ∧
      (is_path_safe_for_pubkey_export (fun i => bip32_path.getD i 0) bip32_path_len
          handler_coin_types = true ∨
        (display ≠ 0 ∧
          ui (compute_path_str fmt bip32_path bip32_path_len) true s = true)) := by
  cases pin_is_validated with
  | false => exact Response.noConfusion h
  | true =>
    refine ⟨rfl, ?_⟩
    simp only [handler_get_extended_pubkey, Bool.not_true, Bool.false_eq_true, if_false] at h
    cases h1 : buffer_read_u8 data with
    | none => rw [h1] at h; exact Response.noConfusion h
    | some p1 =>
      obtain ⟨display, buf1⟩ := p1
      rw [h1] at h
      simp only [] at h
      cases h2 : buffer_read_u8 buf1 with
      | none => rw [h2] at h; exact Response.noConfusion h
      | some p2 =>
        obtain ⟨bip32_path_len, buf2⟩ := p2
        rw [h2] at h
        simp only [] at h
        by_cases hrange : display > 1 ∨ bip32_path_len > MAX_BIP32_PATH_STEPS
        · rw [if_pos hrange] at h; exact Response.noConfusion h
        rw [if_neg hrange] at h
        cases h3 : buffer_read_bip32_path bip32_path_len buf2 with
        | none => rw [h3] at h; exact Response.noConfusion h
        | some p3 =>
          obtain ⟨bip32_path, buf3⟩ := p3
          rw [h3] at h
          simp only [] at h
          by_cases hgate : is_path_safe_for_pubkey_export (fun i => bip32_path.getD i 0)
              bip32_path_len handler_coin_types = false ∧ display = 0
          · rw [if_pos hgate] at h; exact Response.noConfusion h
          rw [if_neg hgate] at h
          cases h4 : derive bip32_path with
          | none => rw [h4] at h; exact Response.noConfusion h
          | some serialized_pubkey_str =>
            rw [h4] at h
            simp only [] at h
            by_cases hdeny : display ≠ 0 ∧
                ui (compute_path_str fmt bip32_path bip32_path_len)
                  (!is_path_safe_for_pubkey_export (fun i => bip32_path.getD i 0)
                    bip32_path_len handler_coin_types) serialized_pubkey_str = false
            · rw [if_pos hdeny] at h; exact Response.noConfusion h
            rw [if_neg hdeny] at h
            obtain rfl : serialized_pubkey_str = s := Response.ok.injEq _ _ ▸ h
            refine ⟨display, buf1, bip32_path_len, buf2, bip32_path, buf3, rfl, h2,
              by omega, by omega, h3, h4, ?_⟩
            cases hsafe : is_path_safe_for_pubkey_export (fun i => bip32_path.getD i 0)
                bip32_path_len handler_coin_types with
            | true => exact Or.inl rfl
            | false =>
              have hdisp : display ≠ 0 := fun h0 => hgate ⟨hsafe, h0⟩
              refine Or.inr ⟨hdisp, ?_⟩
              rw [not_and] at hdeny
              have := hdeny hdisp
              rw [hsafe] at this
              simpa using this

/-- C1 witness: the theorem applied to a successful request for the safe
path `m/44h/0h/0h` with `display = 0`. -/
theorem no_key_without_safety_or_approval_wit :
    (true : Bool) = true ∧
    ∃ display buf1 bip32_path_len buf2 bip32_path buf3,
      buffer_read_u8 [0, 3, 0x80, 0, 0, 0x2C, 0x80, 0, 0, 0, 0x80, 0, 0, 0] =
        some (display, buf1) ∧
      buffer_read_u8 buf1 = some (bip32_path_len, buf2) ∧
      display ≤ 1 ∧ bip32_path_len ≤ MAX_BIP32_PATH_STEPS ∧
      buffer_read_bip32_path bip32_path_len buf2 = some (bip32_path, buf3) ∧
      (fun _ : List Nat => some "xpubDEMO") bip32_path = some "xpubDEMO" ∧
      (is_path_safe_for_pubkey_export (fun i => bip32_path.getD i 0) bip32_path_len
          handler_coin_types = true ∨
        (display ≠ 0 ∧
          (fun _ _ _ => true : String → Bool → String → Bool)
            (compute_path_str (fun _ => "") bip32_path bip32_path_len) true "xpubDEMO" =
            true)) :=
  no_key_without_safety_or_approval true (fun _ => some "xpubDEMO") (fun _ => "")
    (fun _ _ _ => true) [0, 3, 0x80, 0, 0, 0x2C, 0x80, 0, 0, 0, 0x80, 0, 0, 0]
    "xpubDEMO" rfl
